import Mathlib

/-!
Shallow embedding of the OOLONG-Pairs ground-truth pairwise constraint
evaluation engine and its scorer, translated from
`experiments/oolong-pairs/generate_oolong_pairs.py` (functions
`check_user_constraint`, `compute_ground_truth`),
`experiments/oolong-pairs/generate_dataset.py` (function
`compute_ground_truth_pairs`, asymmetric branch with its inner
`matches_a` / `matches_b`), and
`experiments/oolong-pairs/evaluate.py` (functions `parse_pairs`,
`compute_f1`).

Modelling conventions:
* Category labels are strings (the Python code uses plain string keys with
  no validation), user ids are naturals (Python ints).
* Timestamps are stored already parsed: `parse_date` maps a date string
  injectively and monotonically to a `datetime`, and the engine only ever
  compares parsed dates, so an event carries its parsed date as an `Int`
  (day resolution).
* Python dicts become association lists or functions; a dict's key list is
  duplicate-free, recorded as a `Nodup` field of the event store.
* `sorted(...)` on the user-id list is embedded as insertion sort
  (`sortIds`), extensionally equal to Python's sort on integers.
* Python floats in `compute_f1` are modelled as rationals; every value the
  scorer produces on set cardinalities is an exact rational.
-/

namespace Oolong

/-- One classified instance, as stored in `user_labels` /
`ground_truth`: a category label and a (parsed) timestamp. The Python
dict key is `label` in `generate_oolong_pairs.py` and `category` in
`generate_dataset.py`; both files carry the same data. -/
structure Entry where
  label : String
  timestamp : Int
deriving DecidableEq, Repr

/-- Frequency of one category among a user's entries: the value
`label_counts.get(cat, 0)` after the counting loop at the top of
`check_user_constraint`. -/
def labelCount (entries : List Entry) (cat : String) : Nat :=
  (entries.filter (fun e => e.label = cat)).length

/-- The set of categories of a user's entries:
`set(e["label"] for e in entries)`. -/
def catsOf (entries : List Entry) : Finset String :=
  (entries.map (fun e => e.label)).toFinset

/-- A requirement bundle, i.e. one of the Python constraint dicts with
optional keys `has_all`, `at_least`, `exactly` (`None` = key absent).
`at_least` and `exactly` are dicts category → count, embedded as
association lists. -/
structure Constraint where
  has_all : Option (List String)
  at_least : Option (List (String × Nat))
  exactly : Option (List (String × Nat))
deriving DecidableEq, Repr

/-- Translation of `check_user_constraint(user_entries, constraint)` from
`generate_oolong_pairs.py`: each present clause must hold, the early
`return False`s become a conjunction. -/
def check_user_constraint (user_entries : List Entry) (constraint : Constraint) : Bool :=
  (match constraint.has_all with
   | none => true
   | some cats => cats.all fun cat => decide (1 ≤ labelCount user_entries cat)) &&
  (match constraint.at_least with
   | none => true
   | some items => items.all fun item => decide (item.2 ≤ labelCount user_entries item.1)) &&
  (match constraint.exactly with
   | none => true
   | some items => items.all fun item => decide (labelCount user_entries item.1 = item.2))

/-- A date bound: the `"before"` or `"after"` key of a `date_constraint`
dict, holding the parsed cutoff. (`compute_ground_truth` checks for
`"before"` first; the task catalog always supplies exactly one of the
two keys.) -/
inductive DateBound where
  | before (cutoff : Int)
  | after (cutoff : Int)
deriving DecidableEq, Repr

/-- A `date_constraint` dict: the distinguished category and the bound. -/
structure DateConstraint where
  category : String
  bound : DateBound
deriving DecidableEq, Repr

/-- The `date_check` lambda of `compute_ground_truth`: strict comparison
of a parsed timestamp against the parsed cutoff. -/
def date_check (b : DateBound) (ts : Int) : Bool :=
  match b with
  | .before cutoff => decide (ts < cutoff)
  | .after cutoff => decide (cutoff < ts)

/-- The inner `user_passes_date(entries)` of `compute_ground_truth`:
every entry of the constrained category must pass `date_check`;
a user with no entry of that category passes vacuously. -/
def user_passes_date (dc : DateConstraint) (entries : List Entry) : Bool :=
  entries.all fun e => if e.label = dc.category then date_check dc.bound e.timestamp else true

/-- A task specification, the tagged dict dispatched on by
`compute_ground_truth` via `task["type"]`. -/
inductive Task where
  | both_have_any (categories : List String)
  | both_have_any_with_date (categories : List String) (dc : DateConstraint)
  | asymmetric (user_a user_b : Constraint)
deriving DecidableEq, Repr

/-- The event store: the `user_labels` dict of `generate_oolong_pairs.py`
(respectively the `ground_truth` dict of `generate_dataset.py`). `users`
is its key list — duplicate-free, as dict keys are — and `events` its
lookup. -/
structure EventStore where
  users : List Nat
  nodup : users.Nodup
  events : Nat → List Entry

/-- Insertion of an id into a sorted id list (helper for `sortIds`). -/
def insertSorted (x : Nat) : List Nat → List Nat
  | [] => [x]
  | y :: ys => if x ≤ y then x :: y :: ys else y :: insertSorted x ys

/-- Embedding of Python's `sorted(...)` on the integer id list as
insertion sort (extensionally the same function on integer lists). -/
def sortIds (l : List Nat) : List Nat :=
  l.foldr insertSorted []

/-- All pairs produced by the nested loop
`for i, uid1 in enumerate(user_ids): for uid2 in user_ids[i+1:]`,
in emission order. -/
def allPairs : List Nat → List (Nat × Nat)
  | [] => []
  | x :: xs => (xs.map fun y => (x, y)) ++ allPairs xs

/-- The per-pair predicate applied inside the loops of
`compute_ground_truth`, by task type:
* `both_have_any`: both users' category sets intersect the target set;
* `both_have_any_with_date`: additionally both users pass
  `user_passes_date`;
* `asymmetric`: the `if` / `elif` pair of orderings, i.e. the
  disjunction of the two role assignments. -/
def taskPred (events : Nat → List Entry) (task : Task) (p : Nat × Nat) : Bool :=
  match task with
  | .both_have_any categories =>
      decide ((catsOf (events p.1) ∩ categories.toFinset).Nonempty) &&
      decide ((catsOf (events p.2) ∩ categories.toFinset).Nonempty)
  | .both_have_any_with_date categories dc =>
      (decide ((catsOf (events p.1) ∩ categories.toFinset).Nonempty) &&
       decide ((catsOf (events p.2) ∩ categories.toFinset).Nonempty)) &&
      (user_passes_date dc (events p.1) && user_passes_date dc (events p.2))
  | .asymmetric user_a_req user_b_req =>
      (check_user_constraint (events p.1) user_a_req &&
       check_user_constraint (events p.2) user_b_req) ||
      (check_user_constraint (events p.2) user_a_req &&
       check_user_constraint (events p.1) user_b_req)

/-- Translation of `compute_ground_truth(user_labels, task)` from
`generate_oolong_pairs.py`: sort the user ids, enumerate each unordered
pair once via the nested loop, keep those satisfying the task's
predicate, in emission order. -/
def compute_ground_truth (store : EventStore) (task : Task) : List (Nat × Nat) :=
  (allPairs (sortIds store.users)).filter (taskPred store.events task)

/-- The inner `matches_a(entries)` of the asymmetric branch of
`compute_ground_truth_pairs` in `generate_dataset.py`: only the
side-A bundle's `has_all` list is consulted
(`user_a_req.get("has_all", [])`), via category-set membership. -/
def matches_a (entries : List Entry) (user_a_req : Constraint) : Bool :=
  (user_a_req.has_all.getD []).all fun c => decide (c ∈ catsOf entries)

/-- The inner `matches_b(entries)` of the asymmetric branch of
`compute_ground_truth_pairs` in `generate_dataset.py`: only the
side-B bundle's `exactly` dict is consulted
(`user_b_req.get("exactly", {})`), via exact counts. -/
def matches_b (entries : List Entry) (user_b_req : Constraint) : Bool :=
  (user_b_req.exactly.getD []).all fun item => decide (labelCount entries item.1 = item.2)

/-- The asymmetric branch of `compute_ground_truth_pairs(ground_truth,
task)` from `generate_dataset.py`: same sorted nested-loop enumeration,
pair kept when either role assignment succeeds under `matches_a` /
`matches_b`. -/
def compute_ground_truth_pairs_asymmetric (store : EventStore)
    (user_a_req user_b_req : Constraint) : List (Nat × Nat) :=
  (allPairs (sortIds store.users)).filter fun p =>
    (matches_a (store.events p.1) user_a_req && matches_b (store.events p.2) user_b_req) ||
    (matches_a (store.events p.2) user_a_req && matches_b (store.events p.1) user_b_req)

/-- The closed enumeration of the six TREC coarse labels
(`COARSE_LABELS` in `generate_oolong_pairs.py`). -/
def validCategories : List String :=
  ["DESC", "ENTY", "HUM", "NUM", "LOC", "ABBR"]

/-- ASCII whitespace as matched by the regex class `\s` in
`evaluate.py`'s pattern (the benchmark texts are ASCII). -/
def isSp (c : Char) : Bool :=
  c = ' ' || c = '\t' || c = '\n' || c = '\r' || c = '\x0b' || c = '\x0c'

/-- Value of a digit string, as `int(...)` computes it on a regex group
(leading zeros allowed). -/
def digitsToNat (ds : List Char) : Nat :=
  ds.foldl (fun n c => 10 * n + (c.toNat - 48)) 0

/-- One attempt of the regex `\(?\s*(\d+)\s*,\s*(\d+)\s*\)?` from
`parse_pairs` at the start of `cs`. The regex's character classes
(`(`/`)` literals, `\s`, `\d`, `,`) are pairwise disjoint, so the
greedy left-to-right scan below is exactly the Python engine's match:
no backtracked alternative can succeed where the greedy take fails, and
the greedy match is the one the engine returns. Returns the two captured
groups and the remainder after the match. -/
def matchPairAt (cs : List Char) : Option (Nat × Nat × List Char) :=
  let cs1 := match cs with
    | '(' :: r => r
    | _ => cs
  let cs2 := cs1.dropWhile isSp
  let d1 := cs2.takeWhile Char.isDigit
  let cs3 := cs2.dropWhile Char.isDigit
  if d1.isEmpty then none else
  match cs3.dropWhile isSp with
  | ',' :: cs5 =>
    let cs6 := cs5.dropWhile isSp
    let d2 := cs6.takeWhile Char.isDigit
    let cs7 := cs6.dropWhile Char.isDigit
    if d2.isEmpty then none else
    let cs8 := cs7.dropWhile isSp
    let cs9 := match cs8 with
      | ')' :: r => r
      | _ => cs8
    some (digitsToNat d1, digitsToNat d2, cs9)
  | _ => none

/-- Fuelled worker for `findMatches`: try a match at each position,
on success resume after the match (the `re.finditer` scan). Every
successful match consumes at least one character, so fuel equal to the
input length never runs out. -/
def findMatchesAux : Nat → List Char → List (Nat × Nat)
  | 0, _ => []
  | _ + 1, [] => []
  | fuel + 1, c :: cs =>
    match matchPairAt (c :: cs) with
    | some (a, b, rest) => (a, b) :: findMatchesAux fuel rest
    | none => findMatchesAux fuel cs

/-- The list of `(group 1, group 2)` captures of
`re.finditer(pattern, text)` in `parse_pairs`, in scan order. -/
def findMatches (cs : List Char) : List (Nat × Nat) :=
  findMatchesAux cs.length cs

/-- Translation of `parse_pairs(text)` from `evaluate.py`: every match's
captured pair is normalised to `(min, max)` and added to a set. -/
def parse_pairs (text : String) : Finset (Nat × Nat) :=
  (findMatches text.toList).foldl
    (fun pairs q => insert (min q.1 q.2, max q.1 q.2) pairs) ∅

/-- The three scores returned by `compute_f1` (the main path's extra
count fields are derived data the claims do not mention). Floats are
modelled as exact rationals. -/
structure F1Result where
  precision : ℚ
  recallScore : ℚ
  f1 : ℚ
deriving DecidableEq, Repr

/-- Translation of `compute_f1(predicted, ground_truth)` from
`evaluate.py`, with its three early returns in source order. -/
def compute_f1 (predicted ground_truth : Finset (Nat × Nat)) : F1Result :=
  if predicted.card = 0 ∧ ground_truth.card = 0 then ⟨1, 1, 1⟩
  else if predicted.card = 0 then ⟨0, 0, 0⟩
  else if ground_truth.card = 0 then ⟨0, 0, 0⟩
  else
    let tp : ℚ := (predicted ∩ ground_truth).card
    let p : ℚ := tp / predicted.card
    let r : ℚ := tp / ground_truth.card
    let f1 : ℚ := if p + r = 0 then 0 else 2 * p * r / (p + r)
    ⟨p, r, f1⟩

/-- Wording of claim C8 only (not code): a run of whitespace. -/
def specSpaceRun (l : List Char) : Prop := ∀ c ∈ l, isSp c = true

/-- Wording of claim C8 only (not code): a nonempty run of digits. -/
def specDigitRun (l : List Char) : Prop := l ≠ [] ∧ ∀ c ∈ l, c.isDigit = true

/-- Wording of claim C8 only (not code): `sub` is a string of the
pattern's language — an integer pair with optional parentheses and
arbitrary whitespace around the separating comma — with values `a`
and `b`. -/
def specPairShaped (sub : List Char) (a b : Nat) : Prop :=
  ∃ op s1 d1 s2 s3 d2 s4 cl,
    (op = ([] : List Char) ∨ op = ['(']) ∧ (cl = ([] : List Char) ∨ cl = [')']) ∧
    specSpaceRun s1 ∧ specSpaceRun s2 ∧ specSpaceRun s3 ∧ specSpaceRun s4 ∧
    specDigitRun d1 ∧ specDigitRun d2 ∧
    sub = op ++ s1 ++ d1 ++ s2 ++ [','] ++ s3 ++ d2 ++ s4 ++ cl ∧
    a = digitsToNat d1 ∧ b = digitsToNat d2

/-- Wording of claim C8 only (not code): the set of normalised pairs
over ALL substrings of the text matching the pattern. -/
def specSubstringPairs (text : String) : Set (Nat × Nat) :=
  { p | ∃ sub a b, sub.IsInfix text.toList ∧ specPairShaped sub a b ∧
        p = (min a b, max a b) }

/-- The event store of the spec's worked scenario:
users 1, 2, 3 with events NUM@2023-01-01; NUM@2023-01-01, LOC@2023-06-01;
ENTY@2023-01-01 (dates encoded as yyyymmdd integers, order-faithful for
the dates involved). -/
def exampleStore : EventStore where
  users := [1, 2, 3]
  nodup := by decide
  events := fun u =>
    if u = 1 then [⟨"NUM", 20230101⟩]
    else if u = 2 then [⟨"NUM", 20230101⟩, ⟨"LOC", 20230601⟩]
    else if u = 3 then [⟨"ENTY", 20230101⟩]
    else []

/-- A two-user store where both users have one NUM event. -/
def twoNumStore : EventStore where
  users := [1, 2]
  nodup := by decide
  events := fun u =>
    if u = 1 then [⟨"NUM", 20230101⟩]
    else if u = 2 then [⟨"NUM", 20230102⟩]
    else []

/-- A two-user store where both users have no events at all. -/
def emptyEventsStore : EventStore where
  users := [1, 2]
  nodup := by decide
  events := fun _ => []

/-- Strict lexicographic order on emitted pairs: ascending first id,
then ascending second id. -/
def pairLexLt (p q : Nat × Nat) : Prop :=
  p.1 < q.1 ∨ (p.1 = q.1 ∧ p.2 < q.2)

/-! Helper lemmas about the insertion sort embedding of `sorted(...)`. -/

theorem sortIds_cons (z : Nat) (zs : List Nat) :
    sortIds (z :: zs) = insertSorted z (sortIds zs) := rfl

theorem mem_insertSorted {x y : Nat} {l : List Nat} :
    y ∈ insertSorted x l ↔ y = x ∨ y ∈ l := by
  induction l with
  | nil => simp [insertSorted]
  | cons z zs ih =>
    by_cases h : x ≤ z
    · simp [insertSorted, h]
    · simp only [insertSorted, if_neg h, List.mem_cons, ih]
      tauto

theorem sorted_insertSorted {x : Nat} {l : List Nat} (h : l.Sorted (· ≤ ·)) :
    (insertSorted x l).Sorted (· ≤ ·) := by
  induction l with
  | nil => simp [insertSorted]
  | cons z zs ih =>
    rw [List.sorted_cons] at h
    by_cases hxz : x ≤ z
    · rw [insertSorted, if_pos hxz, List.sorted_cons]
      refine ⟨?_, List.sorted_cons.mpr h⟩
      intro b hb
      rcases List.mem_cons.mp hb with rfl | hb
      · exact hxz
      · exact le_trans hxz (h.1 b hb)
    · rw [insertSorted, if_neg hxz, List.sorted_cons]
      refine ⟨?_, ih h.2⟩
      intro b hb
      rcases mem_insertSorted.mp hb with rfl | hb
      · exact le_of_lt (lt_of_not_le hxz)
      · exact h.1 b hb

theorem nodup_insertSorted {x : Nat} {l : List Nat} (hl : l.Nodup) (hx : x ∉ l) :
    (insertSorted x l).Nodup := by
  induction l with
  | nil => simp [insertSorted]
  | cons z zs ih =>
    rw [List.nodup_cons] at hl
    have hxz' : x ≠ z := fun h => hx (h ▸ List.mem_cons_self z zs)
    have hxzs : x ∉ zs := fun h => hx (List.mem_cons.mpr (Or.inr h))
    by_cases hxz : x ≤ z
    · rw [insertSorted, if_pos hxz, List.nodup_cons, List.nodup_cons]
      exact ⟨by simp [hxz', hxzs], hl.1, hl.2⟩
    · rw [insertSorted, if_neg hxz, List.nodup_cons]
      refine ⟨?_, ih hl.2 hxzs⟩
      intro hz
      rcases mem_insertSorted.mp hz with h | h
      · exact hxz' h.symm
      · exact hl.1 h

theorem mem_sortIds {x : Nat} {l : List Nat} : x ∈ sortIds l ↔ x ∈ l := by
  induction l with
  | nil => simp [sortIds]
  | cons z zs ih =>
    rw [sortIds_cons, mem_insertSorted, ih, List.mem_cons]

theorem sorted_sortIds (l : List Nat) : (sortIds l).Sorted (· ≤ ·) := by
  induction l with
  | nil => simp [sortIds]
  | cons z zs ih => exact sortIds_cons z zs ▸ sorted_insertSorted ih

theorem nodup_sortIds {l : List Nat} (h : l.Nodup) : (sortIds l).Nodup := by
  induction l with
  | nil => simp [sortIds]
  | cons z zs ih =>
    rw [List.nodup_cons] at h
    exact sortIds_cons z zs ▸
      nodup_insertSorted (ih h.2) (fun hz => h.1 (mem_sortIds.mp hz))

theorem sortedLt_sortIds {l : List Nat} (h : l.Nodup) :
    (sortIds l).Sorted (· < ·) :=
  List.Pairwise.imp (fun hab => lt_of_le_of_ne hab.1 hab.2)
    (List.Pairwise.and (sorted_sortIds l) (nodup_sortIds h))

/-! Helper lemmas about the nested-loop pair enumeration. -/

theorem mem_allPairs_proj {p : Nat × Nat} {l : List Nat} (h : p ∈ allPairs l) :
    p.1 ∈ l ∧ p.2 ∈ l := by
  induction l with
  | nil => simp [allPairs] at h
  | cons x xs ih =>
    rw [allPairs, List.mem_append] at h
    rcases h with h | h
    · rcases List.mem_map.mp h with ⟨y, hy, rfl⟩
      exact ⟨List.mem_cons_self x xs, List.mem_cons.mpr (Or.inr hy)⟩
    · rcases ih h with ⟨h1, h2⟩
      exact ⟨List.mem_cons.mpr (Or.inr h1), List.mem_cons.mpr (Or.inr h2)⟩

theorem mem_allPairs {x y : Nat} {l : List Nat} (hl : l.Sorted (· < ·)) :
    (x, y) ∈ allPairs l ↔ x ∈ l ∧ y ∈ l ∧ x < y := by
  induction l with
  | nil => simp [allPairs]
  | cons a as ih =>
    rw [List.sorted_cons] at hl
    constructor
    · intro h
      rw [allPairs, List.mem_append] at h
      rcases h with h | h
      · rcases List.mem_map.mp h with ⟨b, hb, heq⟩
        cases heq
        exact ⟨List.mem_cons_self _ _, List.mem_cons.mpr (Or.inr hb), hl.1 _ hb⟩
      · rcases (ih hl.2).mp h with ⟨h1, h2, h3⟩
        exact ⟨List.mem_cons.mpr (Or.inr h1), List.mem_cons.mpr (Or.inr h2), h3⟩
    · rintro ⟨hx, hy, hxy⟩
      rw [allPairs, List.mem_append]
      rcases List.mem_cons.mp hx with rfl | hx'
      · left
        have hy' : y ∈ as := by
          rcases List.mem_cons.mp hy with rfl | h
          · exact absurd hxy (lt_irrefl y)
          · exact h
        exact List.mem_map.mpr ⟨y, hy', rfl⟩
      · right
        have hy' : y ∈ as := by
          rcases List.mem_cons.mp hy with rfl | h
          · exact absurd (lt_trans (hl.1 x hx') hxy) (lt_irrefl y)
          · exact h
        exact (ih hl.2).mpr ⟨hx', hy', hxy⟩

theorem pairwise_allPairs {l : List Nat} (hl : l.Sorted (· < ·)) :
    (allPairs l).Pairwise pairLexLt := by
  induction l with
  | nil => simp [allPairs]
  | cons a as ih =>
    rw [List.sorted_cons] at hl
    rw [allPairs, List.pairwise_append]
    refine ⟨?_, ih hl.2, ?_⟩
    · rw [List.pairwise_map]
      exact List.Pairwise.imp (fun hbc => Or.inr ⟨rfl, hbc⟩) hl.2
    · intro p hp q hq
      rcases List.mem_map.mp hp with ⟨b, _, rfl⟩
      exact Or.inl (hl.1 q.1 (mem_allPairs_proj hq).1)

theorem mem_compute_ground_truth {store : EventStore} {task : Task} {x y : Nat} :
    (x, y) ∈ compute_ground_truth store task ↔
      x ∈ store.users ∧ y ∈ store.users ∧ x < y ∧
        taskPred store.events task (x, y) = true := by
  rw [compute_ground_truth, List.mem_filter,
    mem_allPairs (sortedLt_sortIds store.nodup), mem_sortIds, mem_sortIds]
  tauto

theorem pairwise_compute_ground_truth (store : EventStore) (task : Task) :
    (compute_ground_truth store task).Pairwise pairLexLt :=
  List.Pairwise.sublist (List.filter_sublist _)
    (pairwise_allPairs (sortedLt_sortIds store.nodup))

theorem nodup_compute_ground_truth (store : EventStore) (task : Task) :
    (compute_ground_truth store task).Nodup :=
  List.Pairwise.imp
    (fun h heq => by
      cases heq
      rcases h with h | ⟨_, h⟩ <;> exact lt_irrefl _ h)
    (pairwise_compute_ground_truth store task)

theorem fst_lt_snd_compute_ground_truth {store : EventStore} {task : Task}
    {p : Nat × Nat} (h : p ∈ compute_ground_truth store task) : p.1 < p.2 := by
  obtain ⟨x, y⟩ := p
  exact (mem_compute_ground_truth.mp h).2.2.1

theorem count_le_one_of_nodup_pairs {l : List (Nat × Nat)} (h : l.Nodup)
    (p : Nat × Nat) : l.count p ≤ 1 := by
  induction l with
  | nil => simp
  | cons a as ih =>
    rw [List.nodup_cons] at h
    rw [List.count_cons]
    by_cases hp : p = a
    · subst hp
      have h0 : as.count p = 0 := List.count_eq_zero.mpr h.1
      simp [h0]
    · have hp' : ¬(a = p) := fun hh => hp hh.symm
      simp only [beq_iff_eq, hp', if_false, Nat.add_zero]
      exact ih h.2

/-! Helper lemmas about the constraint predicates. -/

theorem labelCount_pos_iff {entries : List Entry} {c : String} :
    1 ≤ labelCount entries c ↔ c ∈ catsOf entries := by
  constructor
  · intro h
    match hf : entries.filter (fun e => e.label = c) with
    | [] => rw [labelCount, hf] at h; simp at h
    | e :: es =>
      have he := List.mem_filter.mp (hf ▸ List.mem_cons_self e es)
      rw [catsOf, List.mem_toFinset, List.mem_map]
      exact ⟨e, he.1, by simpa using he.2⟩
  · intro h
    rw [catsOf, List.mem_toFinset, List.mem_map] at h
    obtain ⟨e, he, hel⟩ := h
    exact List.length_pos_of_mem (List.mem_filter.mpr ⟨he, by simp [hel]⟩)

theorem user_passes_date_iff {dc : DateConstraint} {entries : List Entry} :
    user_passes_date dc entries = true ↔
      ∀ e ∈ entries, e.label = dc.category →
        (match dc.bound with
         | .before cutoff => e.timestamp < cutoff
         | .after cutoff => cutoff < e.timestamp) := by
  have hpt : ∀ (P : Prop) [Decidable P] (b : Bool),
      ((if P then b else true) = true ↔ (P → b = true)) := by
    intro P _ b
    by_cases h : P <;> simp [h]
  obtain ⟨cat, bound⟩ := dc
  cases bound <;>
    simp only [user_passes_date, List.all_eq_true, hpt, date_check,
      decide_eq_true_eq]

theorem check_user_constraint_iff {entries : List Entry} {c : Constraint} :
    check_user_constraint entries c = true ↔
      ((∀ cat ∈ c.has_all.getD [], 1 ≤ labelCount entries cat) ∧
       (∀ item ∈ c.at_least.getD [], item.2 ≤ labelCount entries item.1) ∧
       (∀ item ∈ c.exactly.getD [], labelCount entries item.1 = item.2)) := by
  obtain ⟨ha, hal, hex⟩ := c
  cases ha <;> cases hal <;> cases hex <;>
    simp [check_user_constraint, List.all_eq_true, and_assoc]

/-! Helper lemma about the scorer's set construction. -/

theorem mem_foldl_insert_norm (l : List (Nat × Nat)) (s : Finset (Nat × Nat))
    (p : Nat × Nat) :
    p ∈ l.foldl (fun pairs q => insert (min q.1 q.2, max q.1 q.2) pairs) s ↔
      p ∈ s ∨ ∃ q ∈ l, p = (min q.1 q.2, max q.1 q.2) := by
  induction l generalizing s with
  | nil => simp
  | cons q qs ih =>
    rw [List.foldl_cons, ih]
    simp only [Finset.mem_insert, List.exists_mem_cons_iff]
    tauto

theorem mem_parse_pairs {text : String} {p : Nat × Nat} :
    p ∈ parse_pairs text ↔
      ∃ q ∈ findMatches text.toList, p = (min q.1 q.2, max q.1 q.2) := by
  rw [parse_pairs, mem_foldl_insert_norm]
  simp

/-- C1: for every event store and every BothHaveAny task with target
category set C, the pair enumerator includes the canonical pair of two
distinct users x and y if and only if the set of categories of x's
events intersects C and the set of categories of y's events
intersects C. -/
theorem C1_both_have_any_membership (store : EventStore) (C : List String)
    (x y : Nat) (hx : x ∈ store.users) (hy : y ∈ store.users) (hxy : x < y) :
    (x, y) ∈ compute_ground_truth store (Task.both_have_any C) ↔
      ((catsOf (store.events x) ∩ C.toFinset).Nonempty ∧
       (catsOf (store.events y) ∩ C.toFinset).Nonempty) := by
  rw [mem_compute_ground_truth]
  simp [taskPred, hx, hy, hxy]

/-- C1 witness: the spec's worked scenario — users 1 and 2 both touch
{NUM, LOC}, user 3 does not, so (1,2) is in the result and the pairs
involving user 3 are not. -/
theorem C1_witness :
    (1, 2) ∈ compute_ground_truth exampleStore (Task.both_have_any ["NUM", "LOC"]) ∧
    (1, 3) ∉ compute_ground_truth exampleStore (Task.both_have_any ["NUM", "LOC"]) ∧
    (2, 3) ∉ compute_ground_truth exampleStore (Task.both_have_any ["NUM", "LOC"]) := by
  refine ⟨(C1_both_have_any_membership exampleStore ["NUM", "LOC"] 1 2
      (by decide) (by decide) (by decide)).mpr (by decide), fun h => ?_, fun h => ?_⟩
  · have h13 := (C1_both_have_any_membership exampleStore ["NUM", "LOC"] 1 3
      (by decide) (by decide) (by decide)).mp h
    revert h13
    decide
  · have h23 := (C1_both_have_any_membership exampleStore ["NUM", "LOC"] 2 3
      (by decide) (by decide) (by decide)).mp h
    revert h23
    decide

/-- C2: a pair is in a BothHaveAnyWithDate result if and only if the
BothHaveAny condition holds for both users and, for each user, every
event of the distinguished dateCategory satisfies the date bound with
strict inequality (before: strictly earlier, after: strictly later);
a user with no event of dateCategory passes vacuously, since the
condition quantifies over exactly those events. -/
theorem C2_both_have_any_with_date_membership (store : EventStore)
    (C : List String) (dc : DateConstraint) (x y : Nat)
    (hx : x ∈ store.users) (hy : y ∈ store.users) (hxy : x < y) :
    (x, y) ∈ compute_ground_truth store (Task.both_have_any_with_date C dc) ↔
      ((catsOf (store.events x) ∩ C.toFinset).Nonempty ∧
       (catsOf (store.events y) ∩ C.toFinset).Nonempty ∧
       (∀ e ∈ store.events x, e.label = dc.category →
         (match dc.bound with
          | .before cutoff => e.timestamp < cutoff
          | .after cutoff => cutoff < e.timestamp)) ∧
       (∀ e ∈ store.events y, e.label = dc.category →
         (match dc.bound with
          | .before cutoff => e.timestamp < cutoff
          | .after cutoff => cutoff < e.timestamp))) := by
  rw [mem_compute_ground_truth]
  simp [taskPred, hx, hy, hxy, user_passes_date_iff, and_assoc]

/-- C2 witness: the spec's scenario with a before-bound on NUM keeps the
pair (1,2); with an unsatisfiable before-bound on ABBR — a category in
which no user has any event — both users pass vacuously and (1,2) stays. -/
theorem C2_witness :
    (1, 2) ∈ compute_ground_truth exampleStore
      (Task.both_have_any_with_date ["NUM", "LOC"] ⟨"NUM", .before 20230201⟩) ∧
    (1, 2) ∈ compute_ground_truth exampleStore
      (Task.both_have_any_with_date ["NUM", "LOC"] ⟨"ABBR", .before 0⟩) :=
  ⟨(C2_both_have_any_with_date_membership exampleStore ["NUM", "LOC"]
      ⟨"NUM", .before 20230201⟩ 1 2 (by decide) (by decide) (by decide)).mpr
      (by decide),
   (C2_both_have_any_with_date_membership exampleStore ["NUM", "LOC"]
      ⟨"ABBR", .before 0⟩ 1 2 (by decide) (by decide) (by decide)).mpr
      (by decide)⟩

/-- C3: a pair is in an Asymmetric result if and only if one of the two
role assignments satisfies sideA and sideB; and even when both
assignments succeed, the pair occurs at most once in the result. -/
theorem C3_asymmetric_membership (store : EventStore) (A B : Constraint)
    (x y : Nat) (hx : x ∈ store.users) (hy : y ∈ store.users) (hxy : x < y) :
    ((x, y) ∈ compute_ground_truth store (Task.asymmetric A B) ↔
      ((check_user_constraint (store.events x) A = true ∧
        check_user_constraint (store.events y) B = true) ∨
       (check_user_constraint (store.events y) A = true ∧
        check_user_constraint (store.events x) B = true))) ∧
    (compute_ground_truth store (Task.asymmetric A B)).count (x, y) ≤ 1 := by
  constructor
  · rw [mem_compute_ground_truth]
    simp [taskPred, hx, hy, hxy]
  · exact count_le_one_of_nodup_pairs (nodup_compute_ground_truth _ _) _

/-- C3 witness: a task whose two sides are identical, on two users who
each satisfy both sides — both role assignments succeed, yet (1,2) is
emitted exactly once. -/
theorem C3_witness :
    (1, 2) ∈ compute_ground_truth twoNumStore
      (Task.asymmetric ⟨some ["NUM"], none, none⟩ ⟨some ["NUM"], none, none⟩) ∧
    (compute_ground_truth twoNumStore
      (Task.asymmetric ⟨some ["NUM"], none, none⟩
        ⟨some ["NUM"], none, none⟩)).count (1, 2) ≤ 1 := by
  have h := C3_asymmetric_membership twoNumStore ⟨some ["NUM"], none, none⟩
    ⟨some ["NUM"], none, none⟩ 1 2 (by decide) (by decide) (by decide)
  exact ⟨h.1.mpr (by decide), h.2⟩

/-- C4: side satisfaction holds exactly when all present clauses hold —
every hasAll category has count at least 1, every atLeast category meets
its minimum, every exactly category hits its target exactly; in
particular a user with 0 or 2 occurrences of NUM fails an exactly-1
clause on NUM, and a user with exactly 1 occurrence passes it. -/
theorem C4_check_user_constraint_clauses :
    (∀ (entries : List Entry) (c : Constraint),
      check_user_constraint entries c = true ↔
        ((∀ cat ∈ c.has_all.getD [], 1 ≤ labelCount entries cat) ∧
         (∀ item ∈ c.at_least.getD [], item.2 ≤ labelCount entries item.1) ∧
         (∀ item ∈ c.exactly.getD [], labelCount entries item.1 = item.2))) ∧
    check_user_constraint [] ⟨none, none, some [("NUM", 1)]⟩ = false ∧
    check_user_constraint [⟨"NUM", 10⟩, ⟨"NUM", 20⟩]
      ⟨none, none, some [("NUM", 1)]⟩ = false ∧
    check_user_constraint [⟨"NUM", 10⟩] ⟨none, none, some [("NUM", 1)]⟩ = true :=
  ⟨fun _ _ => check_user_constraint_iff, by decide, by decide, by decide⟩

/-- C4 witness: the clause equivalence instantiated at a concrete user
with one NUM event and an exactly-1 bundle. -/
theorem C4_witness :
    check_user_constraint [⟨"NUM", 10⟩] ⟨none, none, some [("NUM", 1)]⟩ = true :=
  (C4_check_user_constraint_clauses.1 [⟨"NUM", 10⟩]
    ⟨none, none, some [("NUM", 1)]⟩).mpr (by decide)

/-- C5: for every store and task the enumerator's output has a strictly
smaller first id in every pair, is strictly ascending in the
lexicographic order (first id, then second id), and contains no
duplicate pair — in particular for Asymmetric tasks. -/
theorem C5_output_canonical_sorted_nodup (store : EventStore) (task : Task) :
    (∀ p ∈ compute_ground_truth store task, p.1 < p.2) ∧
    (compute_ground_truth store task).Pairwise pairLexLt ∧
    (compute_ground_truth store task).Nodup :=
  ⟨fun _ hp => fst_lt_snd_compute_ground_truth hp,
   pairwise_compute_ground_truth store task,
   nodup_compute_ground_truth store task⟩

/-- C5 witness: the canonical-order properties instantiated on the
worked scenario, with the membership hypothesis discharged at (1,2). -/
theorem C5_witness :
    ((1, 2) : Nat × Nat).1 < (1, 2).2 ∧
    (compute_ground_truth exampleStore
      (Task.both_have_any ["NUM", "LOC"])).Pairwise pairLexLt ∧
    (compute_ground_truth exampleStore (Task.both_have_any ["NUM", "LOC"])).Nodup := by
  have h := C5_output_canonical_sorted_nodup exampleStore (Task.both_have_any ["NUM", "LOC"])
  exact ⟨h.1 (1, 2) (by decide), h.2.1, h.2.2⟩

/-- C6: compute_f1 returns 1.0/1.0/1.0 when both sets are empty,
0.0/0.0/0.0 when exactly one is empty, and otherwise precision
tp/|P|, recall tp/|T| and f1 = 2PR/(P+R) (0 when P+R = 0). -/
theorem C6_compute_f1_cases (P T : Finset (Nat × Nat)) :
    (P = ∅ ∧ T = ∅ → compute_f1 P T = ⟨1, 1, 1⟩) ∧
    (P = ∅ ∧ T ≠ ∅ → compute_f1 P T = ⟨0, 0, 0⟩) ∧
    (P ≠ ∅ ∧ T = ∅ → compute_f1 P T = ⟨0, 0, 0⟩) ∧
    (P ≠ ∅ → T ≠ ∅ →
      compute_f1 P T =
        ⟨((P ∩ T).card : ℚ) / P.card, ((P ∩ T).card : ℚ) / T.card,
         if ((P ∩ T).card : ℚ) / P.card + ((P ∩ T).card : ℚ) / T.card = 0 then 0
         else 2 * (((P ∩ T).card : ℚ) / P.card) * (((P ∩ T).card : ℚ) / T.card) /
           (((P ∩ T).card : ℚ) / P.card + ((P ∩ T).card : ℚ) / T.card)⟩) := by
  refine ⟨?_, ?_, ?_, ?_⟩
  · rintro ⟨rfl, rfl⟩
    simp [compute_f1]
  · rintro ⟨rfl, hT⟩
    simp [compute_f1, Finset.card_eq_zero, hT]
  · rintro ⟨hP, rfl⟩
    simp [compute_f1, Finset.card_eq_zero, hP]
  · intro hP hT
    simp [compute_f1, Finset.card_eq_zero, hP, hT]

/-- C6 witness: the spec's scorer round-trip — a perfect score on two
empty sets, and precision 1, recall 1/2, f1 = 2/3 on the singleton
prediction against a two-pair truth. -/
theorem C6_witness :
    compute_f1 ∅ ∅ = ⟨1, 1, 1⟩ ∧
    compute_f1 {(1, 2)} {(1, 2), (3, 4)} = ⟨1, 1/2, 2/3⟩ := by
  constructor
  · exact (C6_compute_f1_cases ∅ ∅).1 ⟨rfl, rfl⟩
  · have h := (C6_compute_f1_cases {(1, 2)} {(1, 2), (3, 4)}).2.2.2
      (by decide) (by decide)
    rw [h]
    have h1 : (({(1, 2)} : Finset (Nat × Nat)) ∩ {(1, 2), (3, 4)}).card = 1 := by decide
    have h2 : ({(1, 2)} : Finset (Nat × Nat)).card = 1 := by decide
    have h3 : ({(1, 2), (3, 4)} : Finset (Nat × Nat)).card = 2 := by decide
    rw [h1, h2, h3]
    norm_num [F1Result.mk.injEq]

/-- C7 counterexample: evaluating a BothHaveAny task over the unknown
category FOO does not fail — it completes normally and silently treats
FOO as matching nothing: the same store that yields [(1,2)] for NUM
yields [] for FOO, with no error of any kind (the engine is a total
function with no validation or error path). -/
theorem C7_counterexample :
    compute_ground_truth twoNumStore (Task.both_have_any ["FOO"]) = [] ∧
    compute_ground_truth twoNumStore (Task.both_have_any ["NUM"]) = [(1, 2)] := by
  decide

/-- C7 amended: the engine performs no category validation; a category
outside the closed enumeration has count 0 for every user whose events
carry valid labels, so a BothHaveAny task whose categories all lie
outside the enumeration silently yields the empty result instead of
failing. -/
theorem C7_amended_no_validation (store : EventStore) (cats : List String)
    (hvalid : ∀ u ∈ store.users, ∀ e ∈ store.events u, e.label ∈ validCategories)
    (hcats : ∀ c ∈ cats, c ∉ validCategories) :
    compute_ground_truth store (Task.both_have_any cats) = [] := by
  rw [compute_ground_truth, List.filter_eq_nil_iff]
  intro p hp hpred
  have hp1 : p.1 ∈ store.users := mem_sortIds.mp (mem_allPairs_proj hp).1
  simp only [taskPred, Bool.and_eq_true, decide_eq_true_eq] at hpred
  obtain ⟨⟨c, hc⟩, _⟩ := hpred
  rw [Finset.mem_inter] at hc
  obtain ⟨hc1, hc2⟩ := hc
  rw [catsOf, List.mem_toFinset, List.mem_map] at hc1
  obtain ⟨e, he, rfl⟩ := hc1
  exact hcats _ (List.mem_toFinset.mp hc2) (hvalid _ hp1 e he)

/-- C7 witness: the no-validation behaviour instantiated on the two-user
NUM store and two categories outside the enumeration. -/
theorem C7_witness :
    compute_ground_truth twoNumStore (Task.both_have_any ["FOO", "BAR"]) = [] :=
  C7_amended_no_validation twoNumStore ["FOO", "BAR"] (by decide) (by decide)

/-- C8 counterexample: on the text "1,2,3" the substring "2,3" matches
the pattern and normalises to (2,3), but parse_pairs does not return it
— re.finditer consumes "1,2" and never revisits the overlapping
occurrence — so the returned set is not the set over ALL matching
substrings. -/
theorem C8_counterexample :
    (2, 3) ∈ specSubstringPairs "1,2,3" ∧ (2, 3) ∉ parse_pairs "1,2,3" := by
  constructor
  · refine ⟨['2', ',', '3'], 2, 3, ⟨['1', ','], [], by decide⟩,
      ⟨[], [], ['2'], [], [], ['3'], [], [],
        Or.inl rfl, Or.inl rfl, ?_, ?_, ?_, ?_, ?_, ?_, by decide, by decide, by decide⟩,
      by decide⟩ <;>
    first
      | exact fun c hc => absurd hc (List.not_mem_nil c)
      | exact ⟨by decide, by decide⟩
  · decide

/-- C8 amended: parse_pairs returns exactly the set of pairs
(min a b, max a b) over the non-overlapping left-to-right matches that
scanning the text produces (each match greedy at the earliest possible
start, the scan resuming after each match); duplicate matches collapse
in the set, and a text whose scan produces no match yields the empty
set. -/
theorem C8_amended_scan_semantics (text : String) :
    (∀ p : Nat × Nat, p ∈ parse_pairs text ↔
      ∃ q ∈ findMatches text.toList, p = (min q.1 q.2, max q.1 q.2)) ∧
    (findMatches text.toList = [] → parse_pairs text = ∅) := by
  refine ⟨fun p => mem_parse_pairs, fun h => ?_⟩
  rw [parse_pairs, h]
  rfl

/-- C8 witness: a text with no pair-shaped substring yields the empty
set, and a parenthesised pair is extracted and normalised. -/
theorem C8_witness :
    parse_pairs "no integer pairs at all" = ∅ ∧
    (5, 7) ∈ parse_pairs "answer: (7 , 5)" := by
  constructor
  · exact (C8_amended_scan_semantics "no integer pairs at all").2 (by decide)
  · exact ((C8_amended_scan_semantics "answer: (7 , 5)").1 (5, 7)).mpr
      ⟨(7, 5), by decide, by decide⟩

/-- C9 counterexample: on a side-A bundle holding only an exactly-NUM-1
clause and an empty side-B bundle, the lightweight generator's matches_a
accepts a user with no events while check_user_constraint rejects it,
and the two generators disagree on the asymmetric ground truth for the
store whose two users both have no events: [(1,2)] versus []. -/
theorem C9_counterexample :
    matches_a [] ⟨none, none, some [("NUM", 1)]⟩ = true ∧
    check_user_constraint [] ⟨none, none, some [("NUM", 1)]⟩ = false ∧
    compute_ground_truth_pairs_asymmetric emptyEventsStore
      ⟨none, none, some [("NUM", 1)]⟩ ⟨none, none, none⟩ = [(1, 2)] ∧
    compute_ground_truth emptyEventsStore
      (Task.asymmetric ⟨none, none, some [("NUM", 1)]⟩ ⟨none, none, none⟩) = [] := by
  decide

/-- C9 amended: matches_a evaluates only the hasAll clause and matches_b
only the exactly clause; each agrees with check_user_constraint
precisely when the clauses it ignores are absent from its bundle, and
under those restrictions the two generators compute the same asymmetric
ground-truth pair list. -/
theorem C9_amended_side_checks (entries : List Entry) (A B : Constraint)
    (store : EventStore)
    (hA1 : A.at_least = none) (hA2 : A.exactly = none)
    (hB1 : B.has_all = none) (hB2 : B.at_least = none) :
    matches_a entries A = check_user_constraint entries A ∧
    matches_b entries B = check_user_constraint entries B ∧
    compute_ground_truth_pairs_asymmetric store A B =
      compute_ground_truth store (Task.asymmetric A B) := by
  have ha : ∀ es : List Entry, matches_a es A = check_user_constraint es A := by
    intro es
    obtain ⟨haA, halA, hexA⟩ := A
    cases hA1
    cases hA2
    cases haA with
    | none => simp [matches_a, check_user_constraint]
    | some cats =>
      simp only [matches_a, check_user_constraint, Option.getD_some,
        Bool.and_true]
      rw [Bool.eq_iff_iff, List.all_eq_true, List.all_eq_true]
      simp only [decide_eq_true_eq]
      exact forall₂_congr fun c hc => labelCount_pos_iff.symm
  have hb : ∀ es : List Entry, matches_b es B = check_user_constraint es B := by
    intro es
    obtain ⟨haB, halB, hexB⟩ := B
    cases hB1
    cases hB2
    cases hexB with
    | none => simp [matches_b, check_user_constraint]
    | some items => simp [matches_b, check_user_constraint]
  refine ⟨ha entries, hb entries, ?_⟩
  rw [compute_ground_truth_pairs_asymmetric, compute_ground_truth]
  apply List.filter_congr
  intro p hp
  simp only [taskPred, ha, hb]

/-- C9 witness: on bundles of the restricted shapes — side A pure
hasAll, side B pure exactly — the two generators agree, instantiated on
the two-user NUM store. -/
theorem C9_witness :
    compute_ground_truth_pairs_asymmetric twoNumStore
      ⟨some ["NUM"], none, none⟩ ⟨none, none, some [("NUM", 1)]⟩ =
    compute_ground_truth twoNumStore
      (Task.asymmetric ⟨some ["NUM"], none, none⟩ ⟨none, none, some [("NUM", 1)]⟩) :=
  (C9_amended_side_checks [] ⟨some ["NUM"], none, none⟩
    ⟨none, none, some [("NUM", 1)]⟩ twoNumStore rfl rfl rfl rfl).2.2

/-- C10: every pair parse_pairs returns satisfies fst ≤ snd but not
necessarily fst < snd — the text "(5, 5)" yields the reflexive pair
(5,5) — while ground-truth pairs always have strictly distinct ids, so a
reflexive pair can never be a true positive. -/
theorem C10_parse_pairs_reflexive_pairs :
    (∀ (text : String) (p : Nat × Nat), p ∈ parse_pairs text → p.1 ≤ p.2) ∧
    (5, 5) ∈ parse_pairs "(5, 5)" ∧
    (∀ (store : EventStore) (task : Task) (n : Nat),
      (n, n) ∉ compute_ground_truth store task) := by
  refine ⟨?_, by decide, ?_⟩
  · intro text p hp
    obtain ⟨q, _, rfl⟩ := mem_parse_pairs.mp hp
    exact min_le_max
  · intro store task n hmem
    exact lt_irrefl n (mem_compute_ground_truth.mp hmem).2.2.1

/-- C10 witness: the bound instantiated at the reflexive pair extracted
from "(5, 5)", and its exclusion from a concrete ground truth. -/
theorem C10_witness :
    ((5, 5) : Nat × Nat).1 ≤ (5, 5).2 ∧
    (1, 1) ∉ compute_ground_truth exampleStore (Task.both_have_any ["NUM", "LOC"]) :=
  ⟨C10_parse_pairs_reflexive_pairs.1 "(5, 5)" (5, 5)
      C10_parse_pairs_reflexive_pairs.2.1,
   C10_parse_pairs_reflexive_pairs.2.2 exampleStore
      (Task.both_have_any ["NUM", "LOC"]) 1⟩

end Oolong
